import Mathlib

/-!
Shallow embedding of the choyxona order bot (src/choyxona_bot): the menu
catalogue (menu.py), the payload schemas and validator (schemas.py), the
order calculator inside the web-app handler (bot.py), and the SQLite-backed
order store (storage.py).

All monetary values in the program are Python `Decimal`s holding whole
currency units (menu prices are whole-number literals, quantities and the
payload's `discount`/`paid` are ints, and every derived value is a sum or
product of those), so they are embedded as `Int`.

`created_at` is a `datetime`; it is stored and compared as its ISO-8601
string, whose lexicographic order coincides with chronological order at
microsecond resolution.  It is embedded as a `Nat` counting microseconds
since the epoch, and a calendar day as the `Nat` index `t / usPerDay`.
-/

namespace Choyxona

/-! ### Model of the storage layer's numeric round trip

`storage.py` writes every monetary value with `float(...)` (IEEE-754
binary64, round to nearest, ties to even) into a NUMERIC column, and reads
it back with `Decimal(str(...))`.  For an integer-valued double of
magnitude below 10^16, `str` prints the integer exactly, so the composition
write-then-read equals rounding the integer to the nearest binary64 value.
`float64RoundNat` implements that rounding on naturals: values up to 2^53
are exact; above, the value is rounded to the nearest multiple of the unit
in the last place, ties to even significand. -/

/-- Number of halvings needed to bring `n` under 2^53, i.e. the binary64
exponent of the unit in the last place for `n ≥ 2^53`.  The fuel `1024`
covers every finite double. -/
def expAux : Nat → Nat → Nat
  | 0, _ => 0
  | f + 1, n => if n < 9007199254740992 then 0 else expAux f (n / 2) + 1

/-- Exponent of the ulp of `n` as a binary64 value (`0` below 2^53). -/
def floatExp (n : Nat) : Nat := expAux 1024 n

/-- Round `n` to the nearest multiple of `2 ^ e`, ties to even quotient. -/
def roundAtNat (n e : Nat) : Nat :=
  if e = 0 then n
  else
    let q := n / 2 ^ e
    let r := n % 2 ^ e
    let h := 2 ^ e / 2
    if r < h then q * 2 ^ e
    else if h < r then (q + 1) * 2 ^ e
    else if q % 2 = 0 then q * 2 ^ e else (q + 1) * 2 ^ e

/-- Nearest binary64 value of a natural number (round half to even). -/
def float64RoundNat (n : Nat) : Nat := roundAtNat n (floatExp n)

/-- Value of a whole-unit monetary `Decimal` after the store's
`float(...)` write and `Decimal(str(...))` read (storage.py lines 80-84,
100-101 and 129-133, 150-151). -/
def storeNumeric (x : Int) : Int :=
  if x < 0 then -(float64RoundNat x.natAbs : Int) else (float64RoundNat x.natAbs : Int)

/-! ### Menu catalogue (menu.py) -/

structure MenuItem where
  id : String
  name : String
  category : String
  price : Int
deriving DecidableEq, Repr

/-- The static catalogue `MENU` (menu.py lines 26-37). -/
def MENU : List MenuItem := [
  ⟨"tea_green", "Ko\x27k choy", "Ichimliklar", 5000⟩,
  ⟨"tea_black", "Qora choy", "Ichimliklar", 4000⟩,
  ⟨"lepyoshka", "Non", "Qo\x27shimchalar", 3000⟩,
  ⟨"somsa_lamb", "Qo\x27y go\x27shtli somsa", "Somsa", 12000⟩,
  ⟨"somsa_beef", "Mol go\x27shtli somsa", "Somsa", 11000⟩,
  ⟨"plov", "Palov", "Asosiy taomlar", 28000⟩,
  ⟨"lagman", "Lag\x27mon", "Asosiy taomlar", 26000⟩,
  ⟨"shashlik", "Kabob", "Asosiy taomlar", 18000⟩,
  ⟨"salad", "Achchiq-chuchuk", "Salatlar", 9000⟩,
  ⟨"ayran", "Ayran", "Ichimliklar", 7000⟩]

/-- `MENU_BY_ID.get` (menu.py line 39): the first catalogue entry with the
given id. -/
def menuLookup (i : String) : Option MenuItem :=
  MENU.find? (fun m => m.id = i)

/-- Catalogue price of an id (`0` when absent; only used under the
hypothesis that the id is present). -/
def priceOf (i : String) : Int :=
  ((menuLookup i).map MenuItem.price).getD 0

/-! ### Schemas (schemas.py) -/

structure OrderItemRequest where
  id : String
  quantity : Int
deriving DecidableEq, Repr

structure OrderRequest where
  customer : String
  items : List OrderItemRequest
  discount : Int
  paid : Int
deriving DecidableEq, Repr

structure StoredOrderItem where
  menu_id : String
  name : String
  quantity : Int
  unit_price : Int
  subtotal : Int
deriving DecidableEq, Repr

structure StoredOrder where
  id : Option Int
  chat_id : Int
  username : Option String
  customer : String
  discount : Int
  paid : Int
  total : Int
  change : Int
  balance : Int
  created_at : Nat
  items : List StoredOrderItem
deriving DecidableEq, Repr

structure OrdersSummary where
  total_orders : Nat
  total_amount : Int
  total_paid : Int
  total_balance : Int
  total_change : Int
deriving DecidableEq, Repr

/-! ### Order calculator (bot.py) -/

/-- Python's `str.strip()` (whitespace from both ends), modelled
structurally over the character list so that it evaluates. -/
def pyStrip (s : String) : String :=
  ⟨((s.data.dropWhile Char.isWhitespace).reverse.dropWhile Char.isWhitespace).reverse⟩

/-- The `ValueError` raised by `build_items` (bot.py line 38); its message
names the offending menu id, carried here structurally. -/
inductive BuildError where
  | unknownMenuItem (id : String)
deriving DecidableEq, Repr

/-- The loop of `build_items` (bot.py lines 33-50): resolve each requested
id, snapshot name and price, accumulate subtotals; the first unresolved id
raises. -/
def build_items_from : List OrderItemRequest → Except BuildError (List StoredOrderItem × Int)
  | [] => .ok ([], 0)
  | req :: rest =>
    match menuLookup req.id with
    | none => .error (.unknownMenuItem req.id)
    | some m =>
      match build_items_from rest with
      | .error e => .error e
      | .ok (items, total) =>
        .ok (⟨m.id, m.name, req.quantity, m.price, m.price * req.quantity⟩ :: items,
             m.price * req.quantity + total)

/-- `build_items` (bot.py lines 32-50). -/
def build_items (order : OrderRequest) : Except BuildError (List StoredOrderItem × Int) :=
  build_items_from order.items

/-- Lines 80-105 of `handle_web_app` (bot.py): build the item snapshot,
clamp the discount, derive net total, change and balance, and assemble the
`StoredOrder` (id unset; `customer` is stripped). -/
def computeStoredOrder (payload : OrderRequest) (chat_id : Int) (username : Option String)
    (now : Nat) : Except BuildError StoredOrder :=
  match build_items payload with
  | .error e => .error e
  | .ok (items, total) =>
    let discount := if total < payload.discount then total else payload.discount
    let net_total := total - discount
    let paid := payload.paid
    let change := max (paid - net_total) 0
    let balance := max (net_total - paid) 0
    .ok ⟨none, chat_id, username, pyStrip payload.customer, discount, paid, net_total,
         change, balance, now, items⟩

/-! ### Order store (storage.py)

The two SQLite tables are embedded as a list of persisted order rows (each
row carrying its item rows, as joined back by `_fetch_order_items`), kept
in rowid order, together with the next AUTOINCREMENT id.  A persisted
numeric cell holds the binary64 value written by `float(...)`; the read
path's `Decimal(str(...))` recovers exactly that value (see
`storeNumeric`). -/

structure OrderStorage where
  nextId : Int
  rows : List StoredOrder
deriving DecidableEq, Repr

/-- A storage whose tables are empty (fresh database, first rowid 1). -/
def emptyStorage : OrderStorage := ⟨1, []⟩

/-- The item row written by `record_order` (storage.py lines 89-103):
text and integer columns verbatim, `unit_price` and `subtotal` through
`float(...)`. -/
def persistItem (it : StoredOrderItem) : StoredOrderItem :=
  { it with unit_price := storeNumeric it.unit_price, subtotal := storeNumeric it.subtotal }

/-- The order row written by `record_order` (storage.py lines 71-103) with
its generated id: monetary columns through `float(...)`, `created_at` as
its ISO string (order-isomorphic to the microsecond count), the rest
verbatim. -/
def persistRow (oid : Int) (o : StoredOrder) : StoredOrder :=
  { o with id := some oid,
           discount := storeNumeric o.discount,
           paid := storeNumeric o.paid,
           total := storeNumeric o.total,
           change := storeNumeric o.change,
           balance := storeNumeric o.balance,
           items := o.items.map persistItem }

/-- `record_order` (storage.py lines 68-105): insert the order row and all
its item rows, commit once, and return `order.model_copy` with the
generated id set.  The single commit makes the row-plus-items append one
atomic state change. -/
def record_order (s : OrderStorage) (order : StoredOrder) : OrderStorage × StoredOrder :=
  (⟨s.nextId + 1, s.rows ++ [persistRow s.nextId order]⟩,
   { order with id := some s.nextId })

/-- Microseconds in a calendar day; `datetime.max.time()` is
`23:59:59.999999`, so the day filter's upper bound is
`d * usPerDay + (usPerDay - 1)`. -/
def usPerDay : Nat := 86400000000

/-- The `BETWEEN` day filter of `list_orders` (storage.py lines 110-114):
`created_at` between the day's `00:00:00` and `23:59:59.999999`, both ends
inclusive. -/
def inDayB (d : Nat) (t : Nat) : Bool :=
  decide (d * usPerDay ≤ t) && decide (t ≤ d * usPerDay + (usPerDay - 1))

/-- `ORDER BY created_at ASC` comparison (ISO strings compare
chronologically). -/
def createdLe (a b : StoredOrder) : Prop := a.created_at ≤ b.created_at

instance : DecidableRel createdLe := fun a b => Nat.decLe a.created_at b.created_at

instance : IsTotal StoredOrder createdLe :=
  ⟨fun a b => Nat.le_total a.created_at b.created_at⟩

instance : IsTrans StoredOrder createdLe :=
  ⟨fun _ _ _ hab hbc => Nat.le_trans hab hbc⟩

instance {ε α : Type} [DecidableEq ε] [DecidableEq α] : DecidableEq (Except ε α) :=
  fun a b =>
    match a, b with
    | .error x, .error y =>
      if h : x = y then isTrue (by rw [h]) else isFalse (fun hc => h (Except.error.inj hc))
    | .ok x, .ok y =>
      if h : x = y then isTrue (by rw [h]) else isFalse (fun hc => h (Except.ok.inj hc))
    | .error _, .ok _ => isFalse (fun hc => Except.noConfusion hc)
    | .ok _, .error _ => isFalse (fun hc => Except.noConfusion hc)

/-- `list_orders` (storage.py lines 107-138): all rows, optionally
filtered to a calendar day, sorted by `created_at` ascending, each with
its item breakdown (already joined in the row model). -/
def list_orders (s : OrderStorage) (day : Option Nat) : List StoredOrder :=
  let filtered := match day with
    | none => s.rows
    | some d => s.rows.filter (fun r => inDayB d r.created_at)
  List.insertionSort createdLe filtered

/-- `summarize` (storage.py lines 156-168): aggregate over
`list_orders day`. -/
def summarize (s : OrderStorage) (day : Option Nat) : OrdersSummary :=
  let orders := list_orders s day
  ⟨orders.length,
   (orders.map StoredOrder.total).sum,
   (orders.map StoredOrder.paid).sum,
   (orders.map StoredOrder.balance).sum,
   (orders.map StoredOrder.change).sum⟩

/-! ### Payload validator (schemas.py)

The raw web-app payload is a JSON document, validated by
`model_validate_json` in pydantic v2's default lax mode.  JSON numerals
are embedded as `Int`: the schema's numeric fields are ints, and a
fractional numeral (which lax mode accepts only when its value is
integral) is outside this `Json` type's granularity.  Lax mode also
coerces an integer-valued JSON *string* to an int field; that coercion is
modelled by `laxInt` below.  Bools are not valid ints in pydantic v2, and
str fields do not accept numbers. -/

inductive Json where
  | null : Json
  | bool : Bool → Json
  | num : Int → Json
  | str : String → Json
  | arr : List Json → Json
  | obj : List (String × Json) → Json

/-- Value bound to a key of a JSON object (`none` off objects); as in
Python's JSON parsing, a duplicated key keeps its last binding. -/
def getField : Json → String → Option Json
  | .obj fs, k => (fs.reverse.find? (fun p => p.1 = k)).map Prod.snd
  | _, _ => none

/-- Value of a run of decimal digits (most significant first), `none` on
any non-digit. -/
def digitsVal : List Char → Nat → Option Nat
  | [], acc => some acc
  | c :: cs, acc =>
    if c.isDigit then digitsVal cs (10 * acc + (c.toNat - 48)) else none

/-- Pydantic v2's lax coercion of a JSON string to an `int` field
(pydantic-core's `str_as_int`), modelled for its core grammar: optional
surrounding whitespace, an optional `+`/`-` sign, a non-empty run of
decimal digits, optionally followed by a fractional part that is a
non-empty run of zeros — as in `"5"`, `" -12 "`, `"3.00"`.  Rarer
spellings some pydantic-core versions admit (digit-group underscores) are
outside the model. -/
def pyIntOfString (s : String) : Option Int :=
  let cs := ((s.data.dropWhile Char.isWhitespace).reverse.dropWhile
    Char.isWhitespace).reverse
  let signed : Bool × List Char :=
    match cs with
    | '-' :: rest => (true, rest)
    | '+' :: rest => (false, rest)
    | _ => (false, cs)
  let intPart := signed.2.takeWhile (fun c => c ≠ '.')
  let fracOk : Bool :=
    match signed.2.dropWhile (fun c => c ≠ '.') with
    | [] => true
    | _ :: fr => !fr.isEmpty && fr.all (fun c => c = '0')
  if intPart.isEmpty || !fracOk then none
  else
    match digitsVal intPart 0 with
    | none => none
    | some n => some (if signed.1 then -(n : Int) else (n : Int))

/-- An `int` field value under pydantic's lax JSON mode: an integer
numeral, or an integer-valued string (`pyIntOfString`); bools and every
other shape are rejected. -/
def laxInt : Json → Option Int
  | .num n => some n
  | .str s => pyIntOfString s
  | _ => none

/-- Validation of one element of `items` against `OrderItemRequest`
(schemas.py lines 12-16): `id` a required string (numbers are not coerced
to str), `quantity` a required integer with `ge=1`, where lax mode also
accepts an integer-valued string. -/
def validateItem (j : Json) : Option OrderItemRequest :=
  match getField j "id", getField j "quantity" with
  | some (.str s), some qv =>
    (laxInt qv).bind (fun q => if 1 ≤ q then some ⟨s, q⟩ else none)
  | _, _ => none

/-- Validation of the `items` array elementwise. -/
def validateItems : List Json → Option (List OrderItemRequest)
  | [] => some []
  | j :: rest =>
    match validateItem j, validateItems rest with
    | some it, some its => some (it :: its)
    | _, _ => none

/-- The `ValidationError`-kind failure of the payload validator, wrapped
into `ValueError` by `parse_order_payload` (schemas.py lines 68-74). -/
inductive ValidationErr where
  | invalid : ValidationErr
deriving DecidableEq, Repr

/-- Validation of `customer` (schemas.py line 22): an optional string
defaulting to the empty string. -/
def customerV (j : Json) : Option String :=
  match getField j "customer" with
  | none => some ""
  | some (.str s) => some s
  | some _ => none

/-- Validation of `items` (schemas.py line 23): a required array, each
element a valid `OrderItemRequest`. -/
def itemsV (j : Json) : Option (List OrderItemRequest) :=
  match getField j "items" with
  | some (.arr xs) => validateItems xs
  | _ => none

/-- Validation of `discount` (schemas.py line 24): an optional integer
with `ge=0` defaulting to 0, lax mode also accepting an integer-valued
string. -/
def discountV (j : Json) : Option Int :=
  match getField j "discount" with
  | none => some 0
  | some v => (laxInt v).bind (fun d => if 0 ≤ d then some d else none)

/-- Validation of `paid` (schemas.py line 25): an optional integer with
`ge=0` defaulting to 0, lax mode also accepting an integer-valued
string. -/
def paidV (j : Json) : Option Int :=
  match getField j "paid" with
  | none => some 0
  | some v => (laxInt v).bind (fun p => if 0 ≤ p then some p else none)

/-- Field-level validation of an object payload: every field must
validate, and the `ensure_items_present` model validator (schemas.py
lines 27-31) then rejects an empty items sequence. -/
def parseFields (j : Json) : Except ValidationErr OrderRequest :=
  match customerV j, itemsV j, discountV j, paidV j with
  | some c, some its, some d, some p =>
    if its.isEmpty then .error .invalid else .ok ⟨c, its, d, p⟩
  | _, _, _, _ => .error .invalid

/-- `parse_order_payload` (schemas.py lines 19-31 and 68-74): the document
must be an object and every field must validate. -/
def parse_order_payload (j : Json) : Except ValidationErr OrderRequest :=
  match j with
  | .obj _ => parseFields j
  | _ => .error .invalid

/-! ### Web-app handler (bot.py lines 66-106) -/

/-- Outcome of `handle_web_app`: the generic invalid-payload reply, the
verbatim unknown-item reply, or the recorded order's acceptance receipt. -/
inductive HandleResult where
  | invalidPayload : ValidationErr → HandleResult
  | unknownItem : BuildError → HandleResult
  | accepted : StoredOrder → HandleResult
deriving DecidableEq, Repr

/-- `handle_web_app` (bot.py lines 66-106) as a state transition on the
store: parse the payload (failure replies and returns before the
calculator runs), compute the order (an unknown menu id replies its error
and returns), otherwise record the order. -/
def handle_web_app (s : OrderStorage) (raw : Json) (chat_id : Int)
    (username : Option String) (now : Nat) : OrderStorage × HandleResult :=
  match parse_order_payload raw with
  | .error e => (s, .invalidPayload e)
  | .ok payload =>
    match computeStoredOrder payload chat_id username now with
    | .error e => (s, .unknownItem e)
    | .ok o =>
      let p := record_order s o
      (p.1, .accepted p.2)

/-! ### Spec-side predicates and concrete example inputs -/

/-- Spec-side gross total: the sum over the requested items of the
catalogue unit price times the quantity. -/
def grossOf (its : List OrderItemRequest) : Int :=
  (its.map (fun it => priceOf it.id * it.quantity)).sum

/-- Well-formedness of one `items` element in the claim's strict
"expected types" reading: a string `id`, an integer *numeral* `quantity`
at least 1. -/
def ItemWF (j : Json) : Prop :=
  (∃ s, getField j "id" = some (.str s)) ∧
  ∃ q, getField j "quantity" = some (.num q) ∧ 1 ≤ q

/-- Well-formedness of a raw payload in the claim's strict "expected
types" reading: an object whose `customer` is absent or a string, whose
`items` is a non-empty array of well-formed items, and whose `discount`
and `paid` are absent or non-negative integer numerals. -/
def PayloadWF (j : Json) : Prop :=
  (∃ fs, j = .obj fs) ∧
  (getField j "customer" = none ∨ ∃ s, getField j "customer" = some (.str s)) ∧
  (∃ xs, getField j "items" = some (.arr xs) ∧ xs ≠ [] ∧ ∀ x ∈ xs, ItemWF x) ∧
  (getField j "discount" = none ∨ ∃ d, getField j "discount" = some (.num d) ∧ 0 ≤ d) ∧
  (getField j "paid" = none ∨ ∃ p, getField j "paid" = some (.num p) ∧ 0 ≤ p)

/-- Well-formedness of one `items` element up to lax coercion: a string
`id`, and a `quantity` that `laxInt` reads as an integer at least 1. -/
def ItemWFLax (j : Json) : Prop :=
  (∃ s, getField j "id" = some (.str s)) ∧
  ∃ v q, getField j "quantity" = some v ∧ laxInt v = some q ∧ 1 ≤ q

/-- Well-formedness of a raw payload up to pydantic's lax coercion: as
`PayloadWF`, except that the int fields `quantity`, `discount` and `paid`
may also be given as integer-valued strings (`laxInt`). -/
def PayloadWFLax (j : Json) : Prop :=
  (∃ fs, j = .obj fs) ∧
  (getField j "customer" = none ∨ ∃ s, getField j "customer" = some (.str s)) ∧
  (∃ xs, getField j "items" = some (.arr xs) ∧ xs ≠ [] ∧ ∀ x ∈ xs, ItemWFLax x) ∧
  (getField j "discount" = none ∨
    ∃ v d, getField j "discount" = some v ∧ laxInt v = some d ∧ 0 ≤ d) ∧
  (getField j "paid" = none ∨
    ∃ v p, getField j "paid" = some v ∧ laxInt v = some p ∧ 0 ≤ p)

/-- Largest magnitude up to which every integer is exactly representable
in binary64: 2^53. -/
def binary64Exact : Nat := 9007199254740992

/-- All monetary fields of an order (and of its items) are within the
exactly-representable binary64 range. -/
def boundedOrder (o : StoredOrder) : Prop :=
  o.discount.natAbs ≤ binary64Exact ∧ o.paid.natAbs ≤ binary64Exact ∧
  o.total.natAbs ≤ binary64Exact ∧ o.change.natAbs ≤ binary64Exact ∧
  o.balance.natAbs ≤ binary64Exact ∧
  ∀ it ∈ o.items, it.unit_price.natAbs ≤ binary64Exact ∧ it.subtotal.natAbs ≤ binary64Exact

instance (o : StoredOrder) : Decidable (boundedOrder o) := by
  unfold boundedOrder; infer_instance

/-- Spec §8 scenario request: two green teas and one plov, no discount,
40000 paid. -/
def wReq : OrderRequest := ⟨"", [⟨"tea_green", 2⟩, ⟨"plov", 1⟩], 0, 40000⟩

/-- Same items with `discount = 50000` (clamping scenario). -/
def wReq3 : OrderRequest := ⟨"", [⟨"tea_green", 2⟩, ⟨"plov", 1⟩], 50000, 40000⟩

/-- Same items with `paid = 10000` and no discount (balance scenario). -/
def wReq4 : OrderRequest := ⟨"", [⟨"tea_green", 2⟩, ⟨"plov", 1⟩], 0, 10000⟩

/-- The order the pipeline produces for `wReq4`: net 38000, change 0,
balance 28000. -/
def wOrder4 : StoredOrder :=
  ⟨none, 1, none, "", 0, 10000, 38000, 0, 28000, 0,
   [⟨"tea_green", "Ko\x27k choy", 2, 5000, 10000⟩, ⟨"plov", "Palov", 1, 28000, 28000⟩]⟩

/-- A small in-range order used for the round-trip witness, recorded at
microsecond 123 of day 5. -/
def wOrder1 : StoredOrder :=
  ⟨none, 1, some "ali", "Ali", 0, 40000, 38000, 2000, 0, 432000000123,
   [⟨"tea_green", "Ko\x27k choy", 2, 5000, 10000⟩, ⟨"plov", "Palov", 1, 28000, 28000⟩]⟩

/-- A pipeline request whose `paid` (2^53 + 1) is not exactly
representable in binary64. -/
def cPayload : OrderRequest := ⟨"", [⟨"tea_green", 1⟩], 0, 9007199254740993⟩

/-- The order the pipeline produces for `cPayload`: one green tea, net
5000, change 2^53 + 1 - 5000. -/
def cOrder : StoredOrder :=
  ⟨none, 7, none, "", 0, 9007199254740993, 5000, 9007199254735993, 0, 0,
   [⟨"tea_green", "Ko\x27k choy", 1, 5000, 5000⟩]⟩

/-- A pipeline request whose net total comes out to 2^53 + 1: the gross is
5000 × 1801439850949 = 9007199254745000 and the discount 4007. -/
def bigPayload : OrderRequest := ⟨"", [⟨"tea_green", 1801439850949⟩], 4007, 1⟩

/-- The order the pipeline produces for `bigPayload`: total 2^53 + 1,
paid 1, change 0, balance 2^53. -/
def bigOrder : StoredOrder :=
  ⟨none, 1, none, "", 4007, 1, 9007199254740993, 0, 9007199254740992, 0,
   [⟨"tea_green", "Ko\x27k choy", 1801439850949, 5000, 9007199254745000⟩]⟩

/-- A raw payload whose single item id `kofe` is not in the catalogue. -/
def wBad : Json :=
  .obj [("customer", .str "Ali"),
        ("items", .arr [.obj [("id", .str "kofe"), ("quantity", .num 1)]]),
        ("discount", .num 0), ("paid", .num 0)]

/-- The validated request for `wBad`. -/
def wBadReq : OrderRequest := ⟨"Ali", [⟨"kofe", 1⟩], 0, 0⟩

/-- A well-formed raw payload with no `customer` field. -/
def wGood : Json :=
  .obj [("items", .arr [.obj [("id", .str "tea_green"), ("quantity", .num 2)]]),
        ("discount", .num 0), ("paid", .num 40000)]

/-- The validated request for `wGood`: `customer` defaulted to `""`. -/
def wGoodReq : OrderRequest := ⟨"", [⟨"tea_green", 2⟩], 0, 40000⟩

/-- A payload whose `paid` is the numeric JSON string `"5"`: not of the
expected types, yet accepted through pydantic's lax coercion. -/
def wLax : Json :=
  .obj [("items", .arr [.obj [("id", .str "tea_green"), ("quantity", .num 1)]]),
        ("paid", .str "5")]

/-- The request the validator produces for `wLax`: `paid` coerced to 5. -/
def wLaxReq : OrderRequest := ⟨"", [⟨"tea_green", 1⟩], 0, 5⟩

/-- The item snapshot `build_items` produces for two green teas and one
plov. -/
def wItems : List StoredOrderItem :=
  [⟨"tea_green", "Ko\x27k choy", 2, 5000, 10000⟩, ⟨"plov", "Palov", 1, 28000, 28000⟩]

/-! ### Helper lemmas -/

theorem expAux_eq_zero (f n : Nat) (h : n < 9007199254740992) : expAux (f + 1) n = 0 := by
  simp [expAux, h]

theorem float64RoundNat_eq_of_le {n : Nat} (h : n ≤ 9007199254740992) :
    float64RoundNat n = n := by
  rcases Nat.lt_or_ge n 9007199254740992 with h' | h'
  · have he : floatExp n = 0 := expAux_eq_zero 1023 n h'
    unfold float64RoundNat
    rw [he]
    simp [roundAtNat]
  · have hn : n = 9007199254740992 := Nat.le_antisymm h h'
    subst hn
    decide

theorem storeNumeric_eq_of_le {x : Int} (h : x.natAbs ≤ binary64Exact) :
    storeNumeric x = x := by
  have h' : x.natAbs ≤ 9007199254740992 := h
  unfold storeNumeric
  rw [float64RoundNat_eq_of_le h']
  split <;> omega

theorem persistItem_eq {it : StoredOrderItem}
    (h1 : it.unit_price.natAbs ≤ binary64Exact) (h2 : it.subtotal.natAbs ≤ binary64Exact) :
    persistItem it = it := by
  unfold persistItem
  rw [storeNumeric_eq_of_le h1, storeNumeric_eq_of_le h2]

theorem map_persistItem_eq {l : List StoredOrderItem}
    (h : ∀ it ∈ l, it.unit_price.natAbs ≤ binary64Exact ∧ it.subtotal.natAbs ≤ binary64Exact) :
    l.map persistItem = l := by
  induction l with
  | nil => rfl
  | cons a l ih =>
    obtain ⟨ha1, ha2⟩ := h a (List.mem_cons_self a l)
    simp only [List.map_cons, persistItem_eq ha1 ha2,
      ih (fun it hit => h it (List.mem_cons_of_mem a hit))]

theorem mem_list_orders_some {s : OrderStorage} {d : Nat} {r : StoredOrder} :
    r ∈ list_orders s (some d) ↔ r ∈ s.rows ∧ inDayB d r.created_at = true := by
  unfold list_orders
  rw [List.Perm.mem_iff (List.perm_insertionSort createdLe _)]
  simp [List.mem_filter]

theorem mem_list_orders_none {s : OrderStorage} {r : StoredOrder} :
    r ∈ list_orders s none ↔ r ∈ s.rows := by
  unfold list_orders
  exact List.Perm.mem_iff (List.perm_insertionSort createdLe _)

theorem mem_rows_of_mem_list_orders {s : OrderStorage} {day : Option Nat} {r : StoredOrder}
    (h : r ∈ list_orders s day) : r ∈ s.rows := by
  cases day with
  | none => exact mem_list_orders_none.mp h
  | some d => exact (mem_list_orders_some.mp h).1

theorem inDayB_self (t : Nat) : inDayB (t / usPerDay) t = true := by
  unfold inDayB usPerDay
  simp only [Bool.and_eq_true, decide_eq_true_eq]
  omega

theorem menuLookup_id {i : String} {m : MenuItem} (h : menuLookup i = some m) : m.id = i := by
  have := List.find?_some h
  simpa using this

theorem priceOf_eq {i : String} {m : MenuItem} (h : menuLookup i = some m) :
    priceOf i = m.price := by
  simp [priceOf, h]

theorem build_items_from_ok (its : List OrderItemRequest)
    (h : ∀ it ∈ its, (menuLookup it.id).isSome) :
    ∃ items, build_items_from its = .ok (items, grossOf its) ∧
      List.Forall₂ (fun rq st => st.menu_id = rq.id ∧ st.quantity = rq.quantity ∧
        st.unit_price = priceOf rq.id ∧ st.subtotal = priceOf rq.id * rq.quantity) its items := by
  induction its with
  | nil => exact ⟨[], rfl, List.Forall₂.nil⟩
  | cons req rest ih =>
    obtain ⟨m, hm⟩ : ∃ m, menuLookup req.id = some m :=
      Option.isSome_iff_exists.mp (h req (List.mem_cons_self req rest))
    obtain ⟨items, hok, hfa⟩ := ih (fun it hit => h it (List.mem_cons_of_mem req hit))
    refine ⟨⟨m.id, m.name, req.quantity, m.price, m.price * req.quantity⟩ :: items, ?_, ?_⟩
    · unfold build_items_from
      rw [hm, hok]
      simp [grossOf, priceOf_eq hm]
    · exact List.Forall₂.cons
        ⟨menuLookup_id hm, rfl, (priceOf_eq hm).symm, by rw [priceOf_eq hm]⟩ hfa

theorem build_items_from_error (its : List OrderItemRequest)
    (h : ∃ it ∈ its, menuLookup it.id = none) :
    ∃ i, (∃ it ∈ its, it.id = i ∧ menuLookup i = none) ∧
      build_items_from its = .error (.unknownMenuItem i) := by
  induction its with
  | nil => simp at h
  | cons req rest ih =>
    by_cases hreq : menuLookup req.id = none
    · refine ⟨req.id, ⟨req, List.mem_cons_self req rest, rfl, hreq⟩, ?_⟩
      unfold build_items_from
      rw [hreq]
    · obtain ⟨m, hm⟩ := Option.ne_none_iff_exists'.mp hreq
      have hrest : ∃ it ∈ rest, menuLookup it.id = none := by
        obtain ⟨it, hit, hnone⟩ := h
        rcases List.mem_cons.mp hit with heq | hit'
        · exact absurd hnone (heq ▸ hreq)
        · exact ⟨it, hit', hnone⟩
      obtain ⟨i, ⟨it, hit, hd, hn⟩, herr⟩ := ih hrest
      refine ⟨i, ⟨it, List.mem_cons_of_mem req hit, hd, hn⟩, ?_⟩
      unfold build_items_from
      rw [hm, herr]

theorem computeStoredOrder_inv {p : OrderRequest} {cid : Int} {u : Option String} {t : Nat}
    {o : StoredOrder} (h : computeStoredOrder p cid u t = .ok o) :
    ∃ items gross, build_items p = .ok (items, gross) ∧
      o = ⟨none, cid, u, pyStrip p.customer,
           if gross < p.discount then gross else p.discount, p.paid,
           gross - (if gross < p.discount then gross else p.discount),
           max (p.paid - (gross - (if gross < p.discount then gross else p.discount))) 0,
           max ((gross - (if gross < p.discount then gross else p.discount)) - p.paid) 0,
           t, items⟩ := by
  unfold computeStoredOrder at h
  cases hb : build_items p with
  | error e => rw [hb] at h; exact absurd h (by simp)
  | ok pr =>
    obtain ⟨items, gross⟩ := pr
    rw [hb] at h
    simp only [Except.ok.injEq] at h
    exact ⟨items, gross, rfl, h.symm⟩

theorem sum_identity (l : List StoredOrder)
    (h : ∀ r ∈ l, r.total = r.paid + r.balance - r.change) :
    (l.map StoredOrder.total).sum =
      (l.map StoredOrder.paid).sum + (l.map StoredOrder.balance).sum
        - (l.map StoredOrder.change).sum := by
  induction l with
  | nil => simp
  | cons a l ih =>
    have ha := h a (List.mem_cons_self a l)
    have hl := ih (fun r hr => h r (List.mem_cons_of_mem a hr))
    simp only [List.map_cons, List.sum_cons]
    omega

theorem validateItem_some_iff {j : Json} :
    (∃ it, validateItem j = some it) ↔ ItemWFLax j := by
  constructor
  · rintro ⟨it, hit⟩
    unfold validateItem at hit
    split at hit
    · next s qv hid hq =>
      cases hlax : laxInt qv with
      | none => rw [hlax] at hit; exact Option.noConfusion hit
      | some q =>
        rw [hlax, Option.some_bind] at hit
        split at hit
        · next h1 => exact ⟨⟨s, hid⟩, qv, q, hq, hlax, h1⟩
        · exact Option.noConfusion hit
    · exact Option.noConfusion hit
  · rintro ⟨⟨s, hs⟩, v, q, hv, hlax, h1⟩
    refine ⟨⟨s, q⟩, ?_⟩
    unfold validateItem
    rw [hs, hv]
    simp [hlax, h1]

theorem validateItem_quantity {j : Json} {it : OrderItemRequest}
    (h : validateItem j = some it) : 1 ≤ it.quantity := by
  unfold validateItem at h
  split at h
  · next s qv hid hq =>
    cases hlax : laxInt qv with
    | none => rw [hlax] at h; exact Option.noConfusion h
    | some q =>
      rw [hlax, Option.some_bind] at h
      split at h
      · next h1 => rw [← Option.some.inj h]; exact h1
      · exact Option.noConfusion h
  · exact Option.noConfusion h

theorem validateItems_some_iff {xs : List Json} :
    (∃ its, validateItems xs = some its) ↔ ∀ x ∈ xs, ItemWFLax x := by
  induction xs with
  | nil => simp [validateItems]
  | cons x rest ih =>
    constructor
    · rintro ⟨its, hits⟩
      intro y hy
      unfold validateItems at hits
      cases hit : validateItem x with
      | none =>
        rw [hit] at hits
        exact Option.noConfusion hits
      | some it =>
        rw [hit] at hits
        cases hrest : validateItems rest with
        | none => rw [hrest] at hits; exact Option.noConfusion hits
        | some its' =>
          rcases List.mem_cons.mp hy with heq | hy'
          · exact heq ▸ validateItem_some_iff.mp ⟨it, hit⟩
          · exact ih.mp ⟨its', hrest⟩ y hy'
    · intro hall
      obtain ⟨it, hit⟩ := validateItem_some_iff.mpr (hall x (List.mem_cons_self x rest))
      obtain ⟨its, hits⟩ := ih.mpr (fun y hy => hall y (List.mem_cons_of_mem x hy))
      refine ⟨it :: its, ?_⟩
      unfold validateItems
      rw [hit, hits]

theorem validateItems_quantity {xs : List Json} {its : List OrderItemRequest}
    (h : validateItems xs = some its) : ∀ it ∈ its, 1 ≤ it.quantity := by
  induction xs generalizing its with
  | nil =>
    unfold validateItems at h
    rw [← Option.some.inj h]
    simp
  | cons x rest ih =>
    unfold validateItems at h
    cases hit : validateItem x with
    | none => rw [hit] at h; exact Option.noConfusion h
    | some it =>
      rw [hit] at h
      cases hrest : validateItems rest with
      | none => rw [hrest] at h; exact Option.noConfusion h
      | some its' =>
        rw [hrest] at h
        rw [← Option.some.inj h]
        intro y hy
        rcases List.mem_cons.mp hy with heq | hy'
        · exact heq ▸ validateItem_quantity hit
        · exact ih hrest y hy'

theorem validateItems_length {xs : List Json} {its : List OrderItemRequest}
    (h : validateItems xs = some its) : xs.length = its.length := by
  induction xs generalizing its with
  | nil =>
    unfold validateItems at h
    rw [← Option.some.inj h]
    rfl
  | cons x rest ih =>
    unfold validateItems at h
    cases hit : validateItem x with
    | none => rw [hit] at h; exact Option.noConfusion h
    | some it =>
      rw [hit] at h
      cases hrest : validateItems rest with
      | none => rw [hrest] at h; exact Option.noConfusion h
      | some its' =>
        rw [hrest] at h
        rw [← Option.some.inj h]
        simp [ih hrest]

theorem customerV_some_iff {j : Json} :
    (∃ c, customerV j = some c) ↔
      (getField j "customer" = none ∨ ∃ s, getField j "customer" = some (.str s)) := by
  unfold customerV
  cases hc : getField j "customer" with
  | none => simp
  | some v => cases v <;> simp

theorem customerV_default {j : Json} {c : String} (h0 : getField j "customer" = none)
    (h : customerV j = some c) : c = "" := by
  unfold customerV at h
  rw [h0] at h
  exact (Option.some.inj h).symm

theorem itemsV_inv {j : Json} {its : List OrderItemRequest} (h : itemsV j = some its) :
    ∃ xs, getField j "items" = some (.arr xs) ∧ validateItems xs = some its := by
  unfold itemsV at h
  cases hi : getField j "items" with
  | none => rw [hi] at h; exact Option.noConfusion h
  | some v =>
    rw [hi] at h
    cases v with
    | arr xs => exact ⟨xs, rfl, h⟩
    | null => exact Option.noConfusion h
    | bool b => exact Option.noConfusion h
    | num n => exact Option.noConfusion h
    | str s => exact Option.noConfusion h
    | obj fs => exact Option.noConfusion h

theorem itemsV_some_iff {j : Json} :
    (∃ its, itemsV j = some its) ↔
      (∃ xs, getField j "items" = some (.arr xs) ∧ ∀ x ∈ xs, ItemWFLax x) := by
  constructor
  · rintro ⟨its, h⟩
    obtain ⟨xs, hxs, hv⟩ := itemsV_inv h
    exact ⟨xs, hxs, validateItems_some_iff.mp ⟨its, hv⟩⟩
  · rintro ⟨xs, hxs, hwf⟩
    obtain ⟨its, hits⟩ := validateItems_some_iff.mpr hwf
    refine ⟨its, ?_⟩
    unfold itemsV
    rw [hxs]
    exact hits

theorem discountV_some_iff {j : Json} :
    (∃ d, discountV j = some d) ↔
      (getField j "discount" = none ∨
        ∃ v d, getField j "discount" = some v ∧ laxInt v = some d ∧ 0 ≤ d) := by
  unfold discountV
  cases hd : getField j "discount" with
  | none => simp
  | some v =>
    constructor
    · rintro ⟨d, h⟩
      have h' : (laxInt v).bind (fun x => if 0 ≤ x then some x else none) = some d := h
      cases hlax : laxInt v with
      | none => rw [hlax] at h'; exact Option.noConfusion h'
      | some n =>
        rw [hlax, Option.some_bind] at h'
        split at h'
        · next h0 =>
          have hn : n = d := Option.some.inj h'
          subst hn
          exact Or.inr ⟨v, n, rfl, hlax, h0⟩
        · exact Option.noConfusion h'
    · rintro (h | ⟨v', d, hv, hlax, h0⟩)
      · exact Option.noConfusion h
      · have hvv : v = v' := Option.some.inj hv
        subst hvv
        exact ⟨d, by simp [hlax, h0]⟩

theorem discountV_nonneg {j : Json} {d : Int} (h : discountV j = some d) : 0 ≤ d := by
  unfold discountV at h
  split at h
  · have h0 : (0 : Int) = d := Option.some.inj h
    omega
  · rename_i v heq
    cases hlax : laxInt v with
    | none => rw [hlax] at h; exact Option.noConfusion h
    | some n =>
      rw [hlax, Option.some_bind] at h
      split at h
      · rename_i h0
        have hn : n = d := Option.some.inj h
        omega
      · exact Option.noConfusion h

theorem paidV_some_iff {j : Json} :
    (∃ p, paidV j = some p) ↔
      (getField j "paid" = none ∨
        ∃ v p, getField j "paid" = some v ∧ laxInt v = some p ∧ 0 ≤ p) := by
  unfold paidV
  cases hp : getField j "paid" with
  | none => simp
  | some v =>
    constructor
    · rintro ⟨p, h⟩
      have h' : (laxInt v).bind (fun x => if 0 ≤ x then some x else none) = some p := h
      cases hlax : laxInt v with
      | none => rw [hlax] at h'; exact Option.noConfusion h'
      | some n =>
        rw [hlax, Option.some_bind] at h'
        split at h'
        · next h0 =>
          have hn : n = p := Option.some.inj h'
          subst hn
          exact Or.inr ⟨v, n, rfl, hlax, h0⟩
        · exact Option.noConfusion h'
    · rintro (h | ⟨v', p, hv, hlax, h0⟩)
      · exact Option.noConfusion h
      · have hvv : v = v' := Option.some.inj hv
        subst hvv
        exact ⟨p, by simp [hlax, h0]⟩

theorem paidV_nonneg {j : Json} {p : Int} (h : paidV j = some p) : 0 ≤ p := by
  unfold paidV at h
  split at h
  · have h0 : (0 : Int) = p := Option.some.inj h
    omega
  · rename_i v heq
    cases hlax : laxInt v with
    | none => rw [hlax] at h; exact Option.noConfusion h
    | some n =>
      rw [hlax, Option.some_bind] at h
      split at h
      · rename_i h0
        have hn : n = p := Option.some.inj h
        omega
      · exact Option.noConfusion h

theorem parseFields_inv {j : Json} {r : OrderRequest} (h : parseFields j = .ok r) :
    customerV j = some r.customer ∧ itemsV j = some r.items ∧
    discountV j = some r.discount ∧ paidV j = some r.paid ∧ r.items ≠ [] := by
  unfold parseFields at h
  cases hc : customerV j with
  | none => rw [hc] at h; exact Except.noConfusion h
  | some c =>
  rw [hc] at h
  cases hi : itemsV j with
  | none => rw [hi] at h; exact Except.noConfusion h
  | some its =>
  rw [hi] at h
  cases hd : discountV j with
  | none => rw [hd] at h; exact Except.noConfusion h
  | some d =>
  rw [hd] at h
  cases hp : paidV j with
  | none => rw [hp] at h; exact Except.noConfusion h
  | some p =>
  rw [hp] at h
  have h' : (if its.isEmpty then Except.error ValidationErr.invalid
      else Except.ok (OrderRequest.mk c its d p)) = Except.ok r := h
  by_cases he : its.isEmpty = true
  · rw [if_pos he] at h'
    exact Except.noConfusion h'
  · rw [if_neg he] at h'
    have hr : OrderRequest.mk c its d p = r := Except.ok.inj h'
    rw [← hr]
    refine ⟨rfl, rfl, rfl, rfl, ?_⟩
    intro hnil
    have hnil' : its = [] := hnil
    exact he (by rw [hnil']; rfl)

theorem parse_ok_inv {j : Json} {r : OrderRequest} (h : parse_order_payload j = .ok r) :
    customerV j = some r.customer ∧ itemsV j = some r.items ∧
    discountV j = some r.discount ∧ paidV j = some r.paid ∧ r.items ≠ [] := by
  cases j with
  | obj fs => exact parseFields_inv h
  | null => exact Except.noConfusion h
  | bool b => exact Except.noConfusion h
  | num n => exact Except.noConfusion h
  | str s => exact Except.noConfusion h
  | arr a => exact Except.noConfusion h

theorem parse_ok_iff {j : Json} :
    (∃ r, parse_order_payload j = .ok r) ↔ PayloadWFLax j := by
  constructor
  · rintro ⟨r, hr⟩
    obtain ⟨hc, hi, hd, hp, hne⟩ := parse_ok_inv hr
    obtain ⟨xs, hxs, hv⟩ := itemsV_inv hi
    have hobj : ∃ fs, j = .obj fs := by
      cases j with
      | obj fs => exact ⟨fs, rfl⟩
      | null => exact Except.noConfusion hr
      | bool b => exact Except.noConfusion hr
      | num n => exact Except.noConfusion hr
      | str s => exact Except.noConfusion hr
      | arr a => exact Except.noConfusion hr
    have hxs_ne : xs ≠ [] := by
      intro hnil
      rw [hnil] at hv
      exact hne ((Option.some.inj hv).symm ▸ rfl)
    refine ⟨hobj, customerV_some_iff.mp ⟨_, hc⟩,
      ⟨xs, hxs, hxs_ne, validateItems_some_iff.mp ⟨_, hv⟩⟩,
      discountV_some_iff.mp ⟨_, hd⟩, paidV_some_iff.mp ⟨_, hp⟩⟩
  · rintro ⟨⟨fs, rfl⟩, hcust, ⟨xs, hxs, hxs_ne, hwf⟩, hdisc, hpaid⟩
    obtain ⟨c, hc⟩ := customerV_some_iff.mpr hcust
    obtain ⟨its, hv⟩ := validateItems_some_iff.mpr hwf
    have hi : itemsV (Json.obj fs) = some its := by
      unfold itemsV
      rw [hxs]
      exact hv
    obtain ⟨d, hd⟩ := discountV_some_iff.mpr hdisc
    obtain ⟨p, hp⟩ := paidV_some_iff.mpr hpaid
    have hits_ne : its.isEmpty = false := by
      cases its with
      | nil =>
        have := validateItems_length hv
        rw [List.length_nil] at this
        exact absurd (List.length_eq_zero.mp this) hxs_ne
      | cons a l => rfl
    refine ⟨⟨c, its, d, p⟩, ?_⟩
    show parseFields (Json.obj fs) = Except.ok ⟨c, its, d, p⟩
    unfold parseFields
    rw [hc, hi, hd, hp]
    show (if its.isEmpty then Except.error ValidationErr.invalid
        else Except.ok (OrderRequest.mk c its d p)) = Except.ok ⟨c, its, d, p⟩
    rw [if_neg (by simp [hits_ne])]

/-! ### Claims -/

/-- C1 (counterexample): the round-trip is not exact for every
pipeline-produced order.  The pipeline accepts `paid = 2^53 + 1`, which the
storage layer's `float(...)` write rounds to 2^53, so every order returned
by `list_orders` on the same day differs from the recorded one in its
`paid` field. -/
theorem C1_roundtrip_counterexample :
    computeStoredOrder cPayload 7 none 0 = .ok cOrder ∧
    ∀ o' ∈ list_orders (record_order emptyStorage cOrder).1 (some 0),
      o'.paid ≠ cOrder.paid := by
  exact ⟨by decide, by decide⟩

/-- C1 (amended): for every `StoredOrder` whose monetary fields are all
within the exactly-representable binary64 range (magnitude at most 2^53),
`record_order` followed by `list_orders` on the same day returns an order
equal to it in every field except the assigned id, with the item sequence
preserved and every monetary field read back exactly. -/
theorem C1_roundtrip_of_representable (s : OrderStorage) (o : StoredOrder)
    (h : boundedOrder o) :
    ∃ o' ∈ list_orders (record_order s o).1 (some (o.created_at / usPerDay)),
      o'.chat_id = o.chat_id ∧ o'.username = o.username ∧ o'.customer = o.customer ∧
      o'.discount = o.discount ∧ o'.paid = o.paid ∧ o'.total = o.total ∧
      o'.change = o.change ∧ o'.balance = o.balance ∧ o'.created_at = o.created_at ∧
      o'.items = o.items := by
  obtain ⟨h1, h2, h3, h4, h5, hitems⟩ := h
  refine ⟨persistRow s.nextId o, ?_, rfl, rfl, rfl,
    storeNumeric_eq_of_le h1, storeNumeric_eq_of_le h2, storeNumeric_eq_of_le h3,
    storeNumeric_eq_of_le h4, storeNumeric_eq_of_le h5, rfl, map_persistItem_eq hitems⟩
  rw [mem_list_orders_some]
  constructor
  · show persistRow s.nextId o ∈ s.rows ++ [persistRow s.nextId o]
    exact List.mem_append_right _ (List.mem_singleton.mpr rfl)
  · show inDayB (o.created_at / usPerDay) (persistRow s.nextId o).created_at = true
    exact inDayB_self o.created_at

/-- C1 (witness): a concrete in-range order round-trips exactly. -/
theorem C1_roundtrip_witness :
    boundedOrder wOrder1 ∧
    ∃ o' ∈ list_orders (record_order emptyStorage wOrder1).1
        (some (wOrder1.created_at / usPerDay)),
      o'.chat_id = wOrder1.chat_id ∧ o'.username = wOrder1.username ∧
      o'.customer = wOrder1.customer ∧ o'.discount = wOrder1.discount ∧
      o'.paid = wOrder1.paid ∧ o'.total = wOrder1.total ∧
      o'.change = wOrder1.change ∧ o'.balance = wOrder1.balance ∧
      o'.created_at = wOrder1.created_at ∧ o'.items = wOrder1.items :=
  ⟨by decide, C1_roundtrip_of_representable emptyStorage wOrder1 (by decide)⟩

/-- C2: for every `OrderRequest` whose item ids all exist in the menu
catalogue, the calculator's gross total is exactly the sum over the items
of catalogue unit price times quantity, and the per-item breakdown carries
`subtotal = unit_price * quantity` with each unit price taken from the
catalogue entry for that id. -/
theorem C2_gross_total (req : OrderRequest)
    (h : ∀ it ∈ req.items, (menuLookup it.id).isSome) :
    ∃ items, build_items req = .ok (items, grossOf req.items) ∧
      List.Forall₂ (fun rq st => st.menu_id = rq.id ∧ st.quantity = rq.quantity ∧
        st.unit_price = priceOf rq.id ∧ st.subtotal = priceOf rq.id * rq.quantity)
        req.items items :=
  build_items_from_ok req.items h

/-- C2 (witness): the spec scenario (two green teas, one plov) yields
gross 38000 with the catalogue prices. -/
theorem C2_gross_total_witness :
    (∀ it ∈ wReq.items, (menuLookup it.id).isSome) ∧
    ∃ items, build_items wReq = .ok (items, grossOf wReq.items) ∧
      List.Forall₂ (fun rq st => st.menu_id = rq.id ∧ st.quantity = rq.quantity ∧
        st.unit_price = priceOf rq.id ∧ st.subtotal = priceOf rq.id * rq.quantity)
        wReq.items items :=
  ⟨by decide, C2_gross_total wReq (by decide)⟩

/-- C3: for every valid order the discount is silently clamped to at most
the gross total (the handler returns an order, no error), the net total is
the gross total minus the clamped discount, a discount above the gross
yields net total exactly 0, and the net total is never negative for a
non-negative discount. -/
theorem C3_discount_clamp (p : OrderRequest) (cid : Int) (u : Option String) (t : Nat)
    (items : List StoredOrderItem) (gross : Int)
    (hb : build_items p = .ok (items, gross)) :
    ∃ o, computeStoredOrder p cid u t = .ok o ∧
      o.discount = min p.discount gross ∧ o.discount ≤ gross ∧
      o.total = gross - o.discount ∧
      (gross < p.discount → o.total = 0) ∧
      (0 ≤ p.discount → 0 ≤ o.total) := by
  have hc : computeStoredOrder p cid u t = .ok ⟨none, cid, u, pyStrip p.customer,
      (if gross < p.discount then gross else p.discount), p.paid,
      gross - (if gross < p.discount then gross else p.discount),
      max (p.paid - (gross - (if gross < p.discount then gross else p.discount))) 0,
      max ((gross - (if gross < p.discount then gross else p.discount)) - p.paid) 0,
      t, items⟩ := by
    unfold computeStoredOrder
    rw [hb]
  refine ⟨_, hc, ?_, ?_, ?_, ?_, ?_⟩
  · show (if gross < p.discount then gross else p.discount) = min p.discount gross
    split <;> omega
  · show (if gross < p.discount then gross else p.discount) ≤ gross
    split <;> omega
  · rfl
  · intro hgt
    show gross - (if gross < p.discount then gross else p.discount) = 0
    rw [if_pos hgt]
    omega
  · intro hd
    show 0 ≤ gross - (if gross < p.discount then gross else p.discount)
    split <;> omega

/-- C3 (witness): the spec clamping scenario, `discount = 50000` on gross
38000, yields net total 0. -/
theorem C3_discount_clamp_witness :
    build_items wReq3 = .ok (wItems, 38000) ∧
    ∃ o, computeStoredOrder wReq3 1 none 0 = .ok o ∧
      o.discount = min wReq3.discount 38000 ∧ o.discount ≤ 38000 ∧
      o.total = 38000 - o.discount ∧
      ((38000 : Int) < wReq3.discount → o.total = 0) ∧
      (0 ≤ wReq3.discount → 0 ≤ o.total) :=
  ⟨by decide, C3_discount_clamp wReq3 1 none 0 wItems 38000 (by decide)⟩

/-- C4: every processed order has `change = max (paid - net_total) 0` and
`balance = max (net_total - paid) 0`; when `paid = net_total` both are
zero, and when `paid ≠ net_total` exactly one of them is nonzero. -/
theorem C4_change_balance (p : OrderRequest) (cid : Int) (u : Option String) (t : Nat)
    (o : StoredOrder) (h : computeStoredOrder p cid u t = .ok o) :
    o.change = max (o.paid - o.total) 0 ∧ o.balance = max (o.total - o.paid) 0 ∧
    (o.paid = o.total → o.change = 0 ∧ o.balance = 0) ∧
    (o.paid ≠ o.total →
      (o.change ≠ 0 ∧ o.balance = 0) ∨ (o.change = 0 ∧ o.balance ≠ 0)) := by
  obtain ⟨items, gross, hb, ho⟩ := computeStoredOrder_inv h
  have hch : o.change = max (o.paid - o.total) 0 := by rw [ho]
  have hba : o.balance = max (o.total - o.paid) 0 := by rw [ho]
  refine ⟨hch, hba, fun hp => ⟨by rw [hch, hp]; omega, by rw [hba, hp]; omega⟩,
    fun hp => ?_⟩
  rcases lt_trichotomy o.paid o.total with hlt | heq | hgt
  · exact Or.inr ⟨by rw [hch]; omega, by rw [hba]; omega⟩
  · exact absurd heq hp
  · exact Or.inl ⟨by rw [hch]; omega, by rw [hba]; omega⟩

/-- C4 (witness): the spec balance scenario, `paid = 10000` on net 38000,
yields change 0 and balance 28000. -/
theorem C4_change_balance_witness :
    computeStoredOrder wReq4 1 none 0 = .ok wOrder4 ∧
    (wOrder4.change = max (wOrder4.paid - wOrder4.total) 0 ∧
     wOrder4.balance = max (wOrder4.total - wOrder4.paid) 0 ∧
     (wOrder4.paid = wOrder4.total → wOrder4.change = 0 ∧ wOrder4.balance = 0) ∧
     (wOrder4.paid ≠ wOrder4.total →
       (wOrder4.change ≠ 0 ∧ wOrder4.balance = 0) ∨
       (wOrder4.change = 0 ∧ wOrder4.balance ≠ 0))) :=
  ⟨by decide, C4_change_balance wReq4 1 none 0 wOrder4 (by decide)⟩

/-- C5: for every day (and for the no-day query), `summarize` equals the
element-wise aggregation of `list_orders`: the order count and the sums of
the `total`, `paid`, `balance` and `change` fields; when `list_orders` is
empty all five aggregates are zero. -/
theorem C5_summarize_aggregates (s : OrderStorage) (day : Option Nat) :
    summarize s day = ⟨(list_orders s day).length,
      ((list_orders s day).map StoredOrder.total).sum,
      ((list_orders s day).map StoredOrder.paid).sum,
      ((list_orders s day).map StoredOrder.balance).sum,
      ((list_orders s day).map StoredOrder.change).sum⟩ ∧
    (list_orders s day = [] → summarize s day = ⟨0, 0, 0, 0, 0⟩) := by
  refine ⟨rfl, fun h => ?_⟩
  unfold summarize
  rw [h]
  rfl

/-- C5 (witness): an empty storage summarizes to all-zero aggregates. -/
theorem C5_summarize_witness : summarize emptyStorage none = ⟨0, 0, 0, 0, 0⟩ :=
  (C5_summarize_aggregates emptyStorage none).2 rfl

/-- C6: a validated submission containing an item id absent from the menu
catalogue makes the handler fail with the unknown-menu-item error naming
an absent id of the submission, and the store is left unchanged (no order
or item row is persisted). -/
theorem C6_unknown_item_no_persist (s : OrderStorage) (raw : Json) (p : OrderRequest)
    (cid : Int) (u : Option String) (t : Nat)
    (hp : parse_order_payload raw = .ok p)
    (habs : ∃ it ∈ p.items, menuLookup it.id = none) :
    ∃ i, (∃ it ∈ p.items, it.id = i ∧ menuLookup i = none) ∧
      handle_web_app s raw cid u t = (s, .unknownItem (.unknownMenuItem i)) := by
  obtain ⟨i, hi, herr⟩ := build_items_from_error p.items habs
  have hco : computeStoredOrder p cid u t = .error (.unknownMenuItem i) := by
    unfold computeStoredOrder
    have hb : build_items p = .error (.unknownMenuItem i) := herr
    rw [hb]
  refine ⟨i, hi, ?_⟩
  unfold handle_web_app
  simp [hp, hco]

/-- C6 (witness): a submission with the unknown id `kofe` is rejected with
the error naming `kofe` and leaves the empty store empty. -/
theorem C6_unknown_item_witness :
    parse_order_payload wBad = .ok wBadReq ∧
    (∃ it ∈ wBadReq.items, menuLookup it.id = none) ∧
    ∃ i, (∃ it ∈ wBadReq.items, it.id = i ∧ menuLookup i = none) ∧
      handle_web_app emptyStorage wBad 1 none 0 =
        (emptyStorage, .unknownItem (.unknownMenuItem i)) :=
  ⟨by decide, by decide,
   C6_unknown_item_no_persist emptyStorage wBad wBadReq 1 none 0 (by decide) (by decide)⟩

/-- C7 (counterexample): the validator does not accept *exactly* the
payloads of the expected types.  A payload whose `paid` is the JSON
string `"5"` is not of the expected types (`paid` is neither absent nor
an integer numeral), yet `model_validate_json`'s lax mode coerces the
string and validation succeeds with `paid = 5`. -/
theorem C7_lax_coercion_counterexample :
    parse_order_payload wLax = .ok wLaxReq ∧ ¬ PayloadWF wLax := by
  constructor
  · decide
  · rintro ⟨-, -, -, -, hpaid⟩
    rcases hpaid with h | ⟨p, h, -⟩
    · exact Option.noConfusion h
    · exact Json.noConfusion (Option.some.inj h)

/-- C7 (amended): the payload validator succeeds, producing an
`OrderRequest`, exactly when the raw payload is a well-formed object of
the expected types *up to pydantic's lax coercion* (an int field may also
be an integer-valued string) with a non-empty items sequence, every
quantity at least 1 and non-negative integer discount and paid; any
produced request satisfies those constraints; a missing customer field
defaults to the empty string; and on a validation error the handler
returns before the calculator runs, leaving the store unchanged. -/
theorem C7_payload_validator (j : Json) :
    ((∃ r, parse_order_payload j = .ok r) ↔ PayloadWFLax j) ∧
    (∀ r, parse_order_payload j = .ok r →
      r.items ≠ [] ∧ (∀ it ∈ r.items, 1 ≤ it.quantity) ∧ 0 ≤ r.discount ∧ 0 ≤ r.paid) ∧
    (∀ r, parse_order_payload j = .ok r → getField j "customer" = none →
      r.customer = "") ∧
    (∀ e (s : OrderStorage) (cid : Int) (u : Option String) (t : Nat),
      parse_order_payload j = .error e →
      handle_web_app s j cid u t = (s, .invalidPayload e)) := by
  refine ⟨parse_ok_iff, ?_, ?_, ?_⟩
  · intro r hr
    obtain ⟨hc, hi, hd, hp, hne⟩ := parse_ok_inv hr
    obtain ⟨xs, hxs, hv⟩ := itemsV_inv hi
    exact ⟨hne, validateItems_quantity hv, discountV_nonneg hd, paidV_nonneg hp⟩
  · intro r hr h0
    obtain ⟨hc, _, _, _, _⟩ := parse_ok_inv hr
    exact customerV_default h0 hc
  · intro e s cid u t he
    unfold handle_web_app
    simp [he]

/-- C7 (witness): a well-formed payload without a customer field validates
to a request with empty customer, non-empty items, positive quantities and
non-negative discount and paid. -/
theorem C7_payload_validator_witness :
    parse_order_payload wGood = .ok wGoodReq ∧
    (wGoodReq.items ≠ [] ∧ (∀ it ∈ wGoodReq.items, 1 ≤ it.quantity) ∧
      0 ≤ wGoodReq.discount ∧ 0 ≤ wGoodReq.paid) ∧
    wGoodReq.customer = "" :=
  ⟨by decide, (C7_payload_validator wGood).2.1 wGoodReq (by decide),
   (C7_payload_validator wGood).2.2.1 wGoodReq (by decide) rfl⟩

/-- C8: `list_orders` with a day returns exactly the stored orders whose
`created_at` lies within the day's full 24-hour span (both boundaries
inclusive), sorted by creation time ascending; without a day it returns
all stored orders in the same ascending order.  Each returned order is a
stored row, hence carries its item breakdown. -/
theorem C8_list_orders_filter_sort (s : OrderStorage) (d : Nat) :
    (∀ r, r ∈ list_orders s (some d) ↔ r ∈ s.rows ∧
      d * usPerDay ≤ r.created_at ∧ r.created_at ≤ d * usPerDay + (usPerDay - 1)) ∧
    List.Sorted createdLe (list_orders s (some d)) ∧
    (list_orders s (some d)).Perm (s.rows.filter (fun r => inDayB d r.created_at)) ∧
    (∀ r, r ∈ list_orders s none ↔ r ∈ s.rows) ∧
    List.Sorted createdLe (list_orders s none) ∧
    (list_orders s none).Perm s.rows := by
  refine ⟨?_, ?_, ?_, fun r => mem_list_orders_none, ?_, ?_⟩
  · intro r
    rw [mem_list_orders_some]
    unfold inDayB
    simp [and_assoc]
  · exact List.sorted_insertionSort createdLe _
  · exact List.perm_insertionSort createdLe _
  · exact List.sorted_insertionSort createdLe _
  · exact List.perm_insertionSort createdLe _

/-- C9: `record_order` returns the input order with only the generated id
populated (every other field equal to the input, which the pure embedding
leaves unmodified), and its state effect is the atomic append of exactly
one order row carrying all of the input's item rows. -/
theorem C9_record_order_frame (s : OrderStorage) (o : StoredOrder) :
    (record_order s o).2.id = some s.nextId ∧
    (record_order s o).2.chat_id = o.chat_id ∧
    (record_order s o).2.username = o.username ∧
    (record_order s o).2.customer = o.customer ∧
    (record_order s o).2.discount = o.discount ∧
    (record_order s o).2.paid = o.paid ∧
    (record_order s o).2.total = o.total ∧
    (record_order s o).2.change = o.change ∧
    (record_order s o).2.balance = o.balance ∧
    (record_order s o).2.created_at = o.created_at ∧
    (record_order s o).2.items = o.items ∧
    (record_order s o).1.nextId = s.nextId + 1 ∧
    (record_order s o).1.rows = s.rows ++ [persistRow s.nextId o] ∧
    (persistRow s.nextId o).items = o.items.map persistItem ∧
    (persistRow s.nextId o).items.length = o.items.length := by
  refine ⟨rfl, rfl, rfl, rfl, rfl, rfl, rfl, rfl, rfl, rfl, rfl, rfl, rfl, rfl, ?_⟩
  show (o.items.map persistItem).length = o.items.length
  exact List.length_map o.items persistItem

/-- C10 (counterexample): the summary identity does not survive storage
for every pipeline-produced order.  The pipeline accepts a request whose
net total is 2^53 + 1 (gross 9007199254745000, discount 4007) with paid 1;
the stored `total` rounds to 2^53 while `paid` and `balance` are stored
exactly, so the day's summary violates
`total_amount = total_paid + total_balance - total_change`. -/
theorem C10_summary_identity_counterexample :
    computeStoredOrder bigPayload 1 none 0 = .ok bigOrder ∧
    bigOrder.total = bigOrder.paid + bigOrder.balance - bigOrder.change ∧
    ¬ ((summarize (record_order emptyStorage bigOrder).1 (some 0)).total_amount =
       (summarize (record_order emptyStorage bigOrder).1 (some 0)).total_paid +
       (summarize (record_order emptyStorage bigOrder).1 (some 0)).total_balance -
       (summarize (record_order emptyStorage bigOrder).1 (some 0)).total_change) := by
  exact ⟨by decide, by decide, by decide⟩

/-- C10 (amended): every order produced by the pipeline satisfies the
in-memory accounting identity `total = paid + balance - change`, and the
daily summary satisfies
`total_amount = total_paid + total_balance - total_change` whenever the
stored rows satisfy the identity (as they do when every monetary field is
exactly representable in binary64, i.e. at most 2^53 in magnitude). -/
theorem C10_accounting_identity :
    (∀ (p : OrderRequest) (cid : Int) (u : Option String) (t : Nat) (o : StoredOrder),
      computeStoredOrder p cid u t = .ok o → o.total = o.paid + o.balance - o.change) ∧
    (∀ (s : OrderStorage) (day : Option Nat),
      (∀ r ∈ s.rows, r.total = r.paid + r.balance - r.change) →
      (summarize s day).total_amount =
        (summarize s day).total_paid + (summarize s day).total_balance
          - (summarize s day).total_change) := by
  constructor
  · intro p cid u t o h
    obtain ⟨items, gross, hb, rfl⟩ := computeStoredOrder_inv h
    dsimp only
    omega
  · intro s day h
    exact sum_identity (list_orders s day)
      (fun r hr => h r (mem_rows_of_mem_list_orders hr))

/-- C10 (witness): the identity holds for the balance-scenario order, and
the summary identity holds for a store whose rows all satisfy it. -/
theorem C10_accounting_identity_witness :
    wOrder4.total = wOrder4.paid + wOrder4.balance - wOrder4.change ∧
    (summarize (record_order emptyStorage wOrder4).1 none).total_amount =
      (summarize (record_order emptyStorage wOrder4).1 none).total_paid +
      (summarize (record_order emptyStorage wOrder4).1 none).total_balance -
      (summarize (record_order emptyStorage wOrder4).1 none).total_change :=
  ⟨C10_accounting_identity.1 wReq4 1 none 0 wOrder4 (by decide),
   C10_accounting_identity.2 (record_order emptyStorage wOrder4).1 none (by decide)⟩

end Choyxona
